import Mathlib

/-!
Shallow embedding of `server.js` of the meetings-api-service repository:
an Express + Mongoose CRUD backend for meetings referencing users.

The document store is modelled as explicit lists of user and meeting
records; each route handler is a pure function from the store (and the
parsed request) to an HTTP response paired with the store after the
request.  Mongoose id casting is modelled by a syntactic ObjectId check:
store operations receiving a string that fails the check throw, which the
handlers' catch blocks turn into a 500 response.
-/

namespace MeetingsApi

/-- One hexadecimal digit, as accepted by the ObjectId syntax. -/
def isHexChar (c : Char) : Bool :=
  c.isDigit || (decide (97 ≤ c.toNat) && decide (c.toNat ≤ 102))
    || (decide (65 ≤ c.toNat) && decide (c.toNat ≤ 70))

/-- Syntactic validity of a Mongo ObjectId (24 hex characters), as used both
by `express-validator`'s `isMongoId` and by mongoose when casting a string
id in `findById` / query filters. -/
def isMongoId (s : String) : Bool :=
  s.length == 24 && s.toList.all isHexChar

/-- A stored User document (fields of the user schema that the routes read;
`name` and `email` are what `populate(_, 'name email')` selects). -/
structure UserRec where
  id : String
  name : String
  email : String
  createdAt : Int
deriving DecidableEq, Repr

/-- A stored Meeting document (fields of the meeting schema). Dates are
their epoch-millisecond values. -/
structure MeetingRec where
  id : String
  title : String
  description : Option String
  startDate : Int
  endDate : Int
  location : Option String
  organizer : String
  attendees : List String
deriving DecidableEq, Repr

/-- The document store: the Users and Meetings collections. -/
structure DB where
  users : List UserRec
  meetings : List MeetingRec
deriving DecidableEq, Repr

/-- Store well-formedness guaranteed by MongoDB/mongoose: `_id` is unique
within a collection, and every stored id is a genuine ObjectId. -/
def DB.wf (db : DB) : Prop :=
  (db.users.map (·.id)).Nodup ∧ (db.meetings.map (·.id)).Nodup ∧
  (∀ u ∈ db.users, isMongoId u.id = true) ∧
  (∀ m ∈ db.meetings, isMongoId m.id = true)

instance (db : DB) : Decidable db.wf := by
  unfold DB.wf; infer_instance

/-- The `User.findById(id)` operation: mongoose first casts `id` to an ObjectId and throws
a CastError when the cast fails; otherwise resolves to the matching
document or null. -/
def findUserById (db : DB) (id : String) : Except String (Option UserRec) :=
  if isMongoId id then .ok (db.users.find? (fun u => u.id == id))
  else .error "CastError"

/-- The `Meeting.findById(id)` operation, with the same casting behaviour. -/
def findMeetingById (db : DB) (id : String) : Except String (Option MeetingRec) :=
  if isMongoId id then .ok (db.meetings.find? (fun m => m.id == id))
  else .error "CastError"

/-- The query `User.countDocuments` over the filter membership of `_id` in
`ids`: every element of `ids` is
cast (a syntactically invalid element throws); the count is the number of
stored user documents whose id occurs in the list. -/
def countUsersIn (db : DB) (ids : List String) : Except String Nat :=
  if ids.all isMongoId then
    .ok (db.users.filter (fun u => ids.contains u.id)).length
  else .error "CastError"

/-- A JSON date-string field of a request body, abstracted by whether the
`isISO8601()` validator accepts it; `iso ms` carries the epoch-millisecond
value of the string.  A string the validator rejects never reaches the
handlers' date comparison (validation short-circuits with 400 first), so
its `new Date(...)` value is not modelled. -/
inductive DateField where
  | iso (ms : Int)
  | malformed (s : String)
deriving DecidableEq, Repr

/-- The `attendees` field of a request body: absent, a JSON array of
(string) values, or present but not an array. -/
inductive AttendeesField where
  | absent
  | arr (ids : List String)
  | notArray
deriving DecidableEq, Repr

/-- A parsed meeting request body. -/
structure MeetingBody where
  title : Option String
  description : Option String
  startDate : Option DateField
  endDate : Option DateField
  location : Option String
  organizer : Option String
  attendees : AttendeesField
deriving DecidableEq, Repr

/-- The `validateMeeting` chain (server.js lines 81-87), aggregating every
failing field's message in chain order, as `validationResult` reports them:
`title` notEmpty, `startDate`/`endDate` isISO8601, `organizer` isMongoId,
`attendees` optional isArray. -/
def validateMeeting (b : MeetingBody) : List String :=
  (if b.title.getD "" = "" then ["Title is required"] else []) ++
  (match b.startDate with
    | some (.iso _) => []
    | _ => ["Start date must be a valid date"]) ++
  (match b.endDate with
    | some (.iso _) => []
    | _ => ["End date must be a valid date"]) ++
  (match b.organizer with
    | some s => if isMongoId s then [] else ["Organizer must be a valid user ID"]
    | none => ["Organizer must be a valid user ID"]) ++
  (match b.attendees with
    | .notArray => ["Attendees must be an array"]
    | _ => [])

/-- The millisecond value of the body's `startDate`, none when it would be
an invalid JS Date. -/
def bodyStartMs (b : MeetingBody) : Option Int :=
  match b.startDate with
  | some (.iso ms) => some ms
  | _ => none

/-- The millisecond value of the body's `endDate`. -/
def bodyEndMs (b : MeetingBody) : Option Int :=
  match b.endDate with
  | some (.iso ms) => some ms
  | _ => none

/-- The comparison `new Date(x) >= new Date(y)` in JS: numeric comparison of the two time
values; any comparison involving an invalid date (NaN) is false. -/
def jsDateGe : Option Int → Option Int → Bool
  | some a, some b => decide (b ≤ a)
  | _, _ => false

/-- The `{id, name, email}` summary `populate(_, 'name email')` embeds. -/
structure UserSummary where
  id : String
  name : String
  email : String
deriving DecidableEq, Repr

/-- An assembled (populated) meeting as returned to the client. -/
structure MeetingOut where
  id : String
  title : String
  description : Option String
  startDate : Int
  endDate : Int
  location : Option String
  organizer : Option UserSummary
  attendees : List UserSummary
deriving DecidableEq, Repr

/-- A JSON response body of the routes we model. -/
inductive RespBody where
  | errMsg (e : String)
  | errList (es : List String)
  | meetingOpt (m : Option MeetingOut)
  | meetings (ms : List MeetingOut)
  | userOut (u : UserRec)
  | users (us : List UserRec)
  | message (m : String)
deriving DecidableEq, Repr

/-- An HTTP response: status code and JSON body. -/
structure HttpResp where
  status : Nat
  body : RespBody
deriving DecidableEq, Repr

/-- The summary a populated reference embeds. -/
def summaryOf (u : UserRec) : UserSummary :=
  ⟨u.id, u.name, u.email⟩

/-- The chain `.populate('organizer', 'name email')` and
`.populate('attendees', 'name email')`:
the organizer reference resolves to its user's summary or null when the user
is missing; attendee references that resolve to no user are dropped from
the populated array (mongoose's default for arrays). -/
def assembleMeeting (db : DB) (m : MeetingRec) : MeetingOut :=
  { id := m.id, title := m.title, description := m.description,
    startDate := m.startDate, endDate := m.endDate, location := m.location,
    organizer := (db.users.find? (fun u => u.id == m.organizer)).map summaryOf,
    attendees := m.attendees.filterMap
      (fun a => (db.users.find? (fun u => u.id == a)).map summaryOf) }

/-- Ascending order on `startDate`, used by every meetings-listing sort. -/
def startLE (a b : MeetingRec) : Prop :=
  a.startDate ≤ b.startDate

instance : DecidableRel startLE :=
  fun a b => inferInstanceAs (Decidable (a.startDate ≤ b.startDate))

instance : IsTotal MeetingRec startLE :=
  ⟨fun a b => Int.le_total a.startDate b.startDate⟩

instance : IsTrans MeetingRec startLE :=
  ⟨fun _ _ _ h1 h2 => le_trans h1 h2⟩

/-- Sorting `.sort` ascending by `startDate` on a meetings query result. -/
def sortByStart (l : List MeetingRec) : List MeetingRec :=
  List.insertionSort startLE l

/-- Descending order on `createdAt`, used by the users listing sort. -/
def createdGE (a b : UserRec) : Prop :=
  b.createdAt ≤ a.createdAt

instance : DecidableRel createdGE :=
  fun a b => inferInstanceAs (Decidable (b.createdAt ≤ a.createdAt))

/-- GET /api/users/:id (server.js lines 134-144). -/
def getUserById (db : DB) (id : String) : HttpResp :=
  match findUserById db id with
  | .error e => ⟨500, .errMsg e⟩
  | .ok none => ⟨404, .errMsg "User not found"⟩
  | .ok (some u) => ⟨200, .userOut u⟩

/-- GET /api/meetings/:id (server.js lines 159-172). -/
def getMeetingById (db : DB) (id : String) : HttpResp :=
  match findMeetingById db id with
  | .error e => ⟨500, .errMsg e⟩
  | .ok none => ⟨404, .errMsg "Meeting not found"⟩
  | .ok (some m) => ⟨200, .meetingOpt (some (assembleMeeting db m))⟩

/-- Outcome of the three body checks a meeting write performs after
structural validation. -/
inductive CheckOutcome where
  | dateErr
  | orgErr
  | attErr
  | castErr (e : String)
  | pass
deriving DecidableEq, Repr

/-- Lines 176-193 and 211-228 of server.js: the date-order check, the
organizer-existence check and the attendee-count check, shared verbatim by
the create and update handlers.  The attendee check runs only when
`req.body.attendees` is truthy with `.length > 0`; an absent field is falsy
and a non-array field cannot occur here (validation already rejected it). -/
def meetingBodyChecks (db : DB) (b : MeetingBody) : CheckOutcome :=
  if jsDateGe (bodyStartMs b) (bodyEndMs b) then .dateErr
  else
    match findUserById db (b.organizer.getD "") with
    | .error e => .castErr e
    | .ok none => .orgErr
    | .ok (some _) =>
      match b.attendees with
      | .arr ids =>
        if 0 < ids.length then
          match countUsersIn db ids with
          | .error e => .castErr e
          | .ok n => if n ≠ ids.length then .attErr else .pass
        else .pass
      | _ => .pass

/-- The Meeting document `new Meeting(req.body)` constructs. `newId` is the
ObjectId the store generates for it. -/
def meetingOfBody (b : MeetingBody) (newId : String) : MeetingRec :=
  { id := newId, title := b.title.getD "",
    description := b.description,
    startDate := (bodyStartMs b).getD 0,
    endDate := (bodyEndMs b).getD 0,
    location := b.location,
    organizer := b.organizer.getD "",
    attendees := match b.attendees with | .arr ids => ids | _ => [] }

/-- POST /api/meetings (server.js lines 174-207), including the
`validateMeeting`/`handleValidationErrors` middleware in front of the
handler.  On success the saved document is re-fetched by its id and
populated before being returned with 201. -/
def postMeetingsRoute (db : DB) (b : MeetingBody) (newId : String) :
    HttpResp × DB :=
  if (validateMeeting b).isEmpty then
    match meetingBodyChecks db b with
    | .dateErr => (⟨400, .errMsg "Start date must be before end date"⟩, db)
    | .castErr e => (⟨500, .errMsg e⟩, db)
    | .orgErr => (⟨400, .errMsg "Organizer not found"⟩, db)
    | .attErr => (⟨400, .errMsg "One or more attendees not found"⟩, db)
    | .pass =>
      (⟨201, .meetingOpt
          ((((db.meetings ++ [meetingOfBody b newId]).find?
              (fun m => m.id == newId)).map
            (assembleMeeting ⟨db.users, db.meetings ++ [meetingOfBody b newId]⟩)))⟩,
       ⟨db.users, db.meetings ++ [meetingOfBody b newId]⟩)
  else (⟨400, .errList (validateMeeting b)⟩, db)

/-- The update `findByIdAndUpdate(id, body, new:true)`: mongoose sets each field
present in the request body on the stored document and returns the updated
document. -/
def applyUpdate (m : MeetingRec) (b : MeetingBody) : MeetingRec :=
  { m with
    title := b.title.getD m.title,
    description := match b.description with | some d => some d | none => m.description,
    startDate := (bodyStartMs b).getD m.startDate,
    endDate := (bodyEndMs b).getD m.endDate,
    location := match b.location with | some v => some v | none => m.location,
    organizer := b.organizer.getD m.organizer,
    attendees := match b.attendees with | .arr ids => ids | _ => m.attendees }

/-- PUT /api/meetings/:id (server.js lines 209-246), including the
validation middleware.  The body checks run first; only then is the target
id cast (throwing on invalid syntax) and looked up, yielding 404 when no
meeting has that id. -/
def putMeetingRoute (db : DB) (id : String) (b : MeetingBody) :
    HttpResp × DB :=
  if (validateMeeting b).isEmpty then
    match meetingBodyChecks db b with
    | .dateErr => (⟨400, .errMsg "Start date must be before end date"⟩, db)
    | .castErr e => (⟨500, .errMsg e⟩, db)
    | .orgErr => (⟨400, .errMsg "Organizer not found"⟩, db)
    | .attErr => (⟨400, .errMsg "One or more attendees not found"⟩, db)
    | .pass =>
      if isMongoId id then
        match db.meetings.find? (fun m => m.id == id) with
        | none => (⟨404, .errMsg "Meeting not found"⟩, db)
        | some m =>
          (⟨200, .meetingOpt (some (assembleMeeting
              ⟨db.users, db.meetings.map
                (fun x => if x.id == id then applyUpdate x b else x)⟩
              (applyUpdate m b)))⟩,
           ⟨db.users, db.meetings.map
              (fun x => if x.id == id then applyUpdate x b else x)⟩)
      else (⟨500, .errMsg "CastError"⟩, db)
  else (⟨400, .errList (validateMeeting b)⟩, db)

/-- DELETE /api/meetings/:id (server.js lines 248-258):
`findByIdAndDelete` casts the id (throwing on invalid syntax), removes the
matching document if any and returns it, null otherwise. -/
def deleteMeetingRoute (db : DB) (id : String) : HttpResp × DB :=
  if isMongoId id then
    match db.meetings.find? (fun m => m.id == id) with
    | none => (⟨404, .errMsg "Meeting not found"⟩, db)
    | some _ =>
      (⟨200, .message "Meeting deleted successfully"⟩,
       ⟨db.users, db.meetings.eraseP (fun m => m.id == id)⟩)
  else (⟨500, .errMsg "CastError"⟩, db)

/-- The filter `{ $or: [{organizer: userId}, {attendees: userId}] }`. -/
def meetingInvolves (uid : String) (m : MeetingRec) : Bool :=
  m.organizer == uid || m.attendees.contains uid

/-- GET /api/users/:userId/meetings (server.js lines 261-285). -/
def getUserMeetings (db : DB) (uid : String) : HttpResp :=
  match findUserById db uid with
  | .error e => ⟨500, .errMsg e⟩
  | .ok none => ⟨404, .errMsg "User not found"⟩
  | .ok (some _) =>
    ⟨200, .meetings ((sortByStart (db.meetings.filter (meetingInvolves uid))).map
        (assembleMeeting db))⟩

/-- The handler registered for GET /api/meetings/upcoming
(server.js lines 288-303): filter `startDate >= now`, sort ascending,
limit 10, populate. -/
def getUpcomingMeetings (db : DB) (now : Int) : HttpResp :=
  ⟨200, .meetings (((sortByStart
      (db.meetings.filter (fun m => decide (now ≤ m.startDate)))).take 10).map
    (assembleMeeting db))⟩

/-- GET /api/meetings (server.js lines 147-157). -/
def listMeetings (db : DB) : HttpResp :=
  ⟨200, .meetings ((sortByStart db.meetings).map (assembleMeeting db))⟩

/-- GET /api/users (server.js lines 111-118). -/
def listUsers (db : DB) : HttpResp :=
  ⟨200, .users (List.insertionSort createdGE db.users)⟩

/-- GET / (server.js lines 106-108). -/
def healthRoute : HttpResp :=
  ⟨200, .message "Meetings API Service is running!"⟩

/-- One segment of a parsed Express route pattern: a literal segment or a
`:name` parameter segment. -/
inductive Seg where
  | lit (s : String)
  | param (name : String)
deriving DecidableEq, Repr

/-- One pattern segment against one path segment: a `:param` segment
matches any single segment, a literal matches itself. -/
def segMatches : Seg → String → Bool
  | .lit l, s => l == s
  | .param _, _ => true

/-- Express route-path matching of a whole pattern against a path, both as
segment lists. -/
def routeMatches : List Seg → List String → Bool
  | [], [] => true
  | p :: ps, s :: ss => segMatches p s && routeMatches ps ss
  | _, _ => false

/-- The GET routes of server.js, tried in registration order as Express
does (health 106, /api/users 111, /api/users/:id 134, /api/meetings 147,
/api/meetings/:id 159, /api/users/:userId/meetings 261,
/api/meetings/upcoming 288), falling through to the 404 handler. -/
def dispatchGet (db : DB) (now : Int) (path : List String) : HttpResp :=
  if routeMatches [] path then healthRoute
  else if routeMatches [.lit "api", .lit "users"] path then listUsers db
  else if routeMatches [.lit "api", .lit "users", .param "id"] path then
    getUserById db (path.getD 2 "")
  else if routeMatches [.lit "api", .lit "meetings"] path then listMeetings db
  else if routeMatches [.lit "api", .lit "meetings", .param "id"] path then
    getMeetingById db (path.getD 2 "")
  else if routeMatches [.lit "api", .lit "users", .param "userId", .lit "meetings"] path then
    getUserMeetings db (path.getD 2 "")
  else if routeMatches [.lit "api", .lit "meetings", .lit "upcoming"] path then
    getUpcomingMeetings db now
  else ⟨404, .errMsg "Route not found"⟩

instance {ε α : Type} [DecidableEq ε] [DecidableEq α] :
    DecidableEq (Except ε α) := fun a b =>
  match a, b with
  | .ok x, .ok y =>
    if h : x = y then .isTrue (by rw [h]) else .isFalse (by simp [h])
  | .error x, .error y =>
    if h : x = y then .isTrue (by rw [h]) else .isFalse (by simp [h])
  | .ok _, .error _ => .isFalse (by simp)
  | .error _, .ok _ => .isFalse (by simp)

/-! Concrete store states and request bodies used to instantiate the
theorems below. -/

/-- A syntactically valid ObjectId. -/
def uidO : String := "aaaaaaaaaaaaaaaaaaaaaaaa"

/-- A second valid ObjectId. -/
def uidA : String := "bbbbbbbbbbbbbbbbbbbbbbbb"

/-- A third valid ObjectId, matching no stored record below. -/
def uidC : String := "cccccccccccccccccccccccc"

/-- A valid ObjectId used as a stored meeting id. -/
def midM : String := "dddddddddddddddddddddddd"

/-- A valid ObjectId standing for a store-generated id. -/
def nid0 : String := "eeeeeeeeeeeeeeeeeeeeeeee"

/-- A stored user acting as organizer. -/
def userO : UserRec := ⟨uidO, "Olive", "olive@example.com", 0⟩

/-- A stored user acting as attendee. -/
def userA : UserRec := ⟨uidA, "Avery", "avery@example.com", 1⟩

/-- A store holding the two users and no meetings. -/
def dbOA : DB := ⟨[userO, userA], []⟩

/-- A stored meeting organized by `userO` with attendee `userA`. -/
def meetM : MeetingRec := ⟨midM, "Standup", none, 100, 200, none, uidO, [uidA]⟩

/-- A store holding the two users and the one meeting. -/
def dbM : DB := ⟨[userO, userA], [meetM]⟩

/-- A structurally valid create/update body that passes every check
against `dbOA`. -/
def okBody : MeetingBody :=
  ⟨some "Standup", none, some (.iso 100), some (.iso 200), none, some uidO,
   .arr [uidA]⟩

/-- Body `okBody` with the existing attendee id listed twice. -/
def dupBody : MeetingBody := { okBody with attendees := .arr [uidA, uidA] }

/-- Body `okBody` with an attendee value that is not a syntactically valid id. -/
def badAttBody : MeetingBody := { okBody with attendees := .arr ["not-an-id"] }

/-- Body `okBody` with `endDate` equal to `startDate`. -/
def eqDatesBody : MeetingBody := { okBody with endDate := some (.iso 100) }

/-- Body `okBody` with the title missing (fails structural validation). -/
def noTitleBody : MeetingBody := { okBody with title := none }

/-- Body `okBody` with a single syntactically valid but unknown attendee id. -/
def missBody : MeetingBody := { okBody with attendees := .arr [uidC] }

/-!
Helper lemmas about the shared validation/check pipeline of the create and
update routes, and two list facts used by the delete and attendee-count
theorems.
-/

/-- A create whose body fails structural validation responds 400 with the
aggregated messages and leaves the store untouched. -/
lemma post_invalid (db : DB) (b : MeetingBody) (nid : String)
    (hval : validateMeeting b ≠ []) :
    postMeetingsRoute db b nid = (⟨400, .errList (validateMeeting b)⟩, db) := by
  unfold postMeetingsRoute
  rw [if_neg (by simpa [List.isEmpty_iff] using hval)]

/-- A create whose body passes structural validation is decided by the
outcome of the three body checks. -/
lemma post_valid_eq (db : DB) (b : MeetingBody) (nid : String)
    (hval : validateMeeting b = []) :
    postMeetingsRoute db b nid =
      match meetingBodyChecks db b with
      | .dateErr => (⟨400, .errMsg "Start date must be before end date"⟩, db)
      | .castErr e => (⟨500, .errMsg e⟩, db)
      | .orgErr => (⟨400, .errMsg "Organizer not found"⟩, db)
      | .attErr => (⟨400, .errMsg "One or more attendees not found"⟩, db)
      | .pass =>
        (⟨201, .meetingOpt
            ((((db.meetings ++ [meetingOfBody b nid]).find?
                (fun m => m.id == nid)).map
              (assembleMeeting ⟨db.users, db.meetings ++ [meetingOfBody b nid]⟩)))⟩,
         ⟨db.users, db.meetings ++ [meetingOfBody b nid]⟩) := by
  unfold postMeetingsRoute
  rw [hval]
  rfl

/-- An update whose body fails structural validation responds 400 with the
aggregated messages and leaves the store untouched. -/
lemma put_invalid (db : DB) (id : String) (b : MeetingBody)
    (hval : validateMeeting b ≠ []) :
    putMeetingRoute db id b = (⟨400, .errList (validateMeeting b)⟩, db) := by
  unfold putMeetingRoute
  rw [if_neg (by simpa [List.isEmpty_iff] using hval)]

/-- An update whose body passes structural validation is decided by the body
checks first and only then by the target lookup. -/
lemma put_valid_eq (db : DB) (id : String) (b : MeetingBody)
    (hval : validateMeeting b = []) :
    putMeetingRoute db id b =
      match meetingBodyChecks db b with
      | .dateErr => (⟨400, .errMsg "Start date must be before end date"⟩, db)
      | .castErr e => (⟨500, .errMsg e⟩, db)
      | .orgErr => (⟨400, .errMsg "Organizer not found"⟩, db)
      | .attErr => (⟨400, .errMsg "One or more attendees not found"⟩, db)
      | .pass =>
        if isMongoId id then
          match db.meetings.find? (fun m => m.id == id) with
          | none => (⟨404, .errMsg "Meeting not found"⟩, db)
          | some m =>
            (⟨200, .meetingOpt (some (assembleMeeting
                ⟨db.users, db.meetings.map
                  (fun x => if x.id == id then applyUpdate x b else x)⟩
                (applyUpdate m b)))⟩,
             ⟨db.users, db.meetings.map
                (fun x => if x.id == id then applyUpdate x b else x)⟩)
        else (⟨500, .errMsg "CastError"⟩, db) := by
  unfold putMeetingRoute
  rw [hval]
  rfl

/-- When the date check passes, the organizer exists and the attendee list
is a non-empty array of well-formed ids, the body checks reduce to the
count-versus-raw-length comparison. -/
lemma checks_of_attendees (db : DB) (b : MeetingBody) (ids : List String)
    (hdate : jsDateGe (bodyStartMs b) (bodyEndMs b) = false)
    (horg : ∃ u, findUserById db (b.organizer.getD "") = .ok (some u))
    (hA : b.attendees = .arr ids) (hne : ids ≠ [])
    (hv : ids.all isMongoId = true) :
    meetingBodyChecks db b =
      if (db.users.filter (fun u => ids.contains u.id)).length ≠ ids.length
      then .attErr else .pass := by
  obtain ⟨u, hu⟩ := horg
  simp [meetingBodyChecks, hdate, hu, hA, countUsersIn, hv,
        List.length_pos, hne]

/-- With unique stored user ids, a duplicated request list always matches
strictly fewer user documents than its raw length. -/
lemma count_lt_of_dup (users : List UserRec) (ids : List String)
    (hU : (users.map (·.id)).Nodup) (hdup : ¬ ids.Nodup) :
    (users.filter (fun u => ids.contains u.id)).length < ids.length := by
  have hsub : ((users.filter (fun u => ids.contains u.id)).map (·.id)).Sublist
      (users.map (·.id)) :=
    (List.filter_sublist users).map _
  have hnd : ((users.filter (fun u => ids.contains u.id)).map (·.id)).Nodup :=
    hsub.nodup hU
  have hss : ((users.filter (fun u => ids.contains u.id)).map (·.id)) ⊆ ids.dedup := by
    intro x hx
    rw [List.mem_map] at hx
    obtain ⟨u, hu, rfl⟩ := hx
    have hmem := List.of_mem_filter hu
    rw [List.mem_dedup]
    simpa using hmem
  have h1 : ((users.filter (fun u => ids.contains u.id)).map (·.id)).length ≤
      ids.dedup.length :=
    (List.subperm_of_subset hnd hss).length_le
  have h2 : ids.dedup.length < ids.length := by
    rcases Nat.lt_or_ge ids.dedup.length ids.length with h | h
    · exact h
    · exfalso
      have hle := (List.dedup_sublist ids).length_le
      have heq := (List.dedup_sublist ids).eq_of_length (le_antisymm hle h)
      exact hdup (heq ▸ List.nodup_dedup ids)
  calc (users.filter (fun u => ids.contains u.id)).length
      = ((users.filter (fun u => ids.contains u.id)).map (·.id)).length :=
        (List.length_map _ _).symm
    _ ≤ ids.dedup.length := h1
    _ < ids.length := h2

/-- With unique stored meeting ids, erasing the first id match removes the
only one, so a subsequent lookup of that id finds nothing. -/
lemma find?_eraseP_of_nodup (l : List MeetingRec) (id : String)
    (h : (l.map (·.id)).Nodup) :
    (l.eraseP (fun m => m.id == id)).find? (fun m => m.id == id) = none := by
  induction l with
  | nil => rfl
  | cons m rest ih =>
    rw [List.map_cons, List.nodup_cons] at h
    by_cases hm : (m.id == id) = true
    · have he : List.eraseP (fun m => m.id == id) (m :: rest) = rest :=
        List.eraseP_cons_of_pos (a := m) (l := rest)
          (p := fun x : MeetingRec => x.id == id) hm
      rw [he, List.find?_eq_none]
      intro x hx hpx
      have hxm : x.id = id := by simpa using hpx
      have hmm : m.id = id := by simpa using hm
      exact h.1 (by rw [List.mem_map]; exact ⟨x, hx, by rw [hxm, hmm]⟩)
    · have he : List.eraseP (fun m => m.id == id) (m :: rest) =
          m :: List.eraseP (fun m => m.id == id) rest :=
        List.eraseP_cons_of_neg (a := m) (l := rest)
          (p := fun x : MeetingRec => x.id == id) hm
      have hf : List.find? (fun x : MeetingRec => x.id == id)
          (m :: List.eraseP (fun x : MeetingRec => x.id == id) rest) =
          List.find? (fun x : MeetingRec => x.id == id)
            (List.eraseP (fun x : MeetingRec => x.id == id) rest) :=
        List.find?_cons_of_neg _ hm
      rw [he, hf]
      exact ih h.2

/-!
The claim theorems.
-/

/-- Claim C1: the claim fails on the code.  GET /api/meetings/upcoming is
captured by the earlier-registered /api/meetings/:id route with
id = "upcoming"; that handler's findById cast of "upcoming" throws, so the
request is answered 500 by the catch block, never 200 with the upcoming
list, and the handler registered for the upcoming path is unreachable. -/
theorem upcoming_route_shadowed (db : DB) (now : Int) :
    dispatchGet db now ["api", "meetings", "upcoming"] =
      getMeetingById db "upcoming" ∧
    (dispatchGet db now ["api", "meetings", "upcoming"]).status = 500 := by
  refine ⟨rfl, ?_⟩
  show (getMeetingById db "upcoming").status = 500
  have h : isMongoId "upcoming" = false := by decide
  simp [getMeetingById, findMeetingById, h]

/-- Claim C2, counterexample to the claim as stated: with the stored user
`userA` requested twice, the matched count (1) equals the number of
distinct requested ids (1), yet the create is rejected with the
attendees-not-found error and nothing is persisted — the code compares the
count against the raw list length, not against the distinct count. -/
theorem dup_attendees_accepted_cex :
    countUsersIn dbOA [uidA, uidA] = .ok 1 ∧
    [uidA, uidA].dedup.length = 1 ∧
    (postMeetingsRoute dbOA dupBody nid0).1 =
      ⟨400, .errMsg "One or more attendees not found"⟩ ∧
    (postMeetingsRoute dbOA dupBody nid0).2 = dbOA := by
  refine ⟨?_, by decide, by decide, by decide⟩
  decide

/-- Claim C2 as amended: on create and update, when validation passed, the
dates are in order, the organizer exists and the attendee list is a
non-empty array of syntactically valid ids, the request fails with the
attendees-not-found error exactly when the count of matching stored users
differs from the raw length of the requested list (duplicates counted). -/
theorem attendee_check_raw_length (db : DB) (b : MeetingBody) (ids : List String)
    (nid id : String)
    (hA : b.attendees = .arr ids) (hne : ids ≠ [])
    (hv : ids.all isMongoId = true) (hval : validateMeeting b = [])
    (hdate : jsDateGe (bodyStartMs b) (bodyEndMs b) = false)
    (horg : ∃ u, findUserById db (b.organizer.getD "") = .ok (some u)) :
    ((postMeetingsRoute db b nid).1 =
        ⟨400, .errMsg "One or more attendees not found"⟩ ↔
      (db.users.filter (fun u => ids.contains u.id)).length ≠ ids.length) ∧
    ((putMeetingRoute db id b).1 =
        ⟨400, .errMsg "One or more attendees not found"⟩ ↔
      (db.users.filter (fun u => ids.contains u.id)).length ≠ ids.length) := by
  have hc := checks_of_attendees db b ids hdate horg hA hne hv
  by_cases hcount : (db.users.filter (fun u => ids.contains u.id)).length = ids.length
  · rw [if_neg (by simpa using hcount)] at hc
    rw [post_valid_eq db b nid hval, put_valid_eq db id b hval, hc]
    refine ⟨⟨fun hr => ?_, fun hr => absurd hcount hr⟩,
            ⟨fun hr => ?_, fun hr => absurd hcount hr⟩⟩
    · simp at hr
    · by_cases hid : isMongoId id = true
      · rw [if_pos hid] at hr
        cases hf : db.meetings.find? (fun m => m.id == id) <;> simp_all
      · rw [if_neg hid] at hr
        simp_all
  · rw [if_pos hcount] at hc
    rw [post_valid_eq db b nid hval, put_valid_eq db id b hval, hc]
    exact ⟨⟨fun _ => hcount, fun _ => rfl⟩, ⟨fun _ => hcount, fun _ => rfl⟩⟩

/-- Witness for the amended C2 theorem at a concrete store and body. -/
theorem attendee_check_raw_length_witness :
    (postMeetingsRoute dbOA missBody nid0).1 =
      ⟨400, .errMsg "One or more attendees not found"⟩ :=
  (attendee_check_raw_length dbOA missBody [uidC] nid0 midM rfl (by decide)
    (by decide) (by decide) (by decide) ⟨userO, by decide⟩).1.mpr (by decide)

/-- Claim C3, counterexample to the claim as stated: a body whose attendees
array holds a value that is not a syntactically valid id passes structural
validation with no error at all, and the request is answered 500 by the
store query's cast error — not 400 by a field-level validation failure
before store access. -/
theorem attendee_syntax_unchecked_cex :
    validateMeeting badAttBody = [] ∧
    (postMeetingsRoute dbOA badAttBody nid0).1 = ⟨500, .errMsg "CastError"⟩ ∧
    (postMeetingsRoute dbOA badAttBody nid0).2 = dbOA := by
  refine ⟨by decide, by decide, by decide⟩

/-- Claim C3 as amended: structural validation checks only that the
attendees field is an array — its value never affects the validation
outcome — so a payload with a non-id attendee value passes validation; if
the earlier checks pass, it reaches the attendee store query, whose cast
throws and yields a 500 response with the store untouched. -/
theorem attendee_elements_unvalidated (b : MeetingBody) (ids ids2 : List String)
    (db : DB) (nid : String) (hA : b.attendees = .arr ids) :
    validateMeeting b = validateMeeting { b with attendees := .arr ids2 } ∧
    (validateMeeting b = [] → ids.all isMongoId = false → ids ≠ [] →
      jsDateGe (bodyStartMs b) (bodyEndMs b) = false →
      (∃ u, findUserById db (b.organizer.getD "") = .ok (some u)) →
      postMeetingsRoute db b nid = (⟨500, .errMsg "CastError"⟩, db)) := by
  constructor
  · simp [validateMeeting, hA]
  · intro hval hsyn hne hdate horg
    obtain ⟨u, hu⟩ := horg
    have hc : meetingBodyChecks db b = .castErr "CastError" := by
      simp [meetingBodyChecks, hdate, hu, hA, countUsersIn, hsyn,
            List.length_pos, hne]
    rw [post_valid_eq db b nid hval, hc]

/-- Witness for the amended C3 theorem at a concrete store and body. -/
theorem attendee_elements_unvalidated_witness :
    postMeetingsRoute dbOA badAttBody nid0 = (⟨500, .errMsg "CastError"⟩, dbOA) :=
  (attendee_elements_unvalidated badAttBody ["not-an-id"] [] dbOA nid0 rfl).2
    (by decide) (by decide) (by decide) (by decide) ⟨userO, by decide⟩

/-- Claim C4: every POST /api/meetings answered 400 — for a structural
validation failure, a date-order failure, a missing organizer or a missing
attendee — persists nothing: the store after the request equals the store
before it. -/
theorem post_400_no_persist (db : DB) (b : MeetingBody) (nid : String)
    (h : (postMeetingsRoute db b nid).1.status = 400) :
    (postMeetingsRoute db b nid).2 = db := by
  by_cases hval : validateMeeting b = []
  · rw [post_valid_eq db b nid hval] at h ⊢
    cases hc : meetingBodyChecks db b <;> simp_all
  · rw [post_invalid db b nid hval]

/-- Witness for C4 at a concrete store and a body with equal dates. -/
theorem post_400_no_persist_witness :
    (postMeetingsRoute dbOA eqDatesBody nid0).2 = dbOA :=
  post_400_no_persist dbOA eqDatesBody nid0 (by decide)

/-- Claim C5: for create and full update whose body passes validation with
both dates parsed, startDate >= endDate (equality included) yields 400 with
the start-before-end error and no write, and a successful create (201) or
update (200) implies startDate strictly before endDate. -/
theorem start_strictly_before_end (db : DB) (b : MeetingBody) (nid id : String)
    (s e : Int)
    (hs : b.startDate = some (.iso s)) (he : b.endDate = some (.iso e))
    (hval : validateMeeting b = []) :
    (e ≤ s →
      postMeetingsRoute db b nid =
        (⟨400, .errMsg "Start date must be before end date"⟩, db) ∧
      putMeetingRoute db id b =
        (⟨400, .errMsg "Start date must be before end date"⟩, db)) ∧
    ((postMeetingsRoute db b nid).1.status = 201 → s < e) ∧
    ((putMeetingRoute db id b).1.status = 200 → s < e) := by
  have hge : e ≤ s → meetingBodyChecks db b = .dateErr := by
    intro hle
    simp [meetingBodyChecks, jsDateGe, bodyStartMs, bodyEndMs, hs, he, hle]
  have hpost : e ≤ s → postMeetingsRoute db b nid =
      (⟨400, .errMsg "Start date must be before end date"⟩, db) := by
    intro hle
    rw [post_valid_eq db b nid hval, hge hle]
  have hput : e ≤ s → putMeetingRoute db id b =
      (⟨400, .errMsg "Start date must be before end date"⟩, db) := by
    intro hle
    rw [put_valid_eq db id b hval, hge hle]
  refine ⟨fun hle => ⟨hpost hle, hput hle⟩, ?_, ?_⟩
  · intro h201
    by_contra hlt
    push_neg at hlt
    rw [hpost hlt] at h201
    simp at h201
  · intro h200
    by_contra hlt
    push_neg at hlt
    rw [hput hlt] at h200
    simp at h200

/-- Witness for C5 at a concrete store and a body with equal dates. -/
theorem start_strictly_before_end_witness :
    postMeetingsRoute dbOA eqDatesBody nid0 =
      (⟨400, .errMsg "Start date must be before end date"⟩, dbOA) :=
  ((start_strictly_before_end dbOA eqDatesBody nid0 midM 100 100 rfl rfl
    (by decide)).1 (by decide)).1

/-- Claim C6: GET /api/users/:userId/meetings for a syntactically valid
userId responds 404 exactly when no such user exists; when the user exists
the response is 200 with the meetings in which the user is organizer or
attendee, each exactly once (a permutation of the filtered collection),
sorted ascending by startDate and assembled. -/
theorem user_meetings_union (db : DB) (uid : String)
    (hid : isMongoId uid = true) :
    ((getUserMeetings db uid).status = 404 ↔
      db.users.find? (fun u => u.id == uid) = none) ∧
    (∀ u, db.users.find? (fun u2 => u2.id == uid) = some u →
      ∃ l, l.Perm (db.meetings.filter (meetingInvolves uid)) ∧
        List.Sorted startLE l ∧
        getUserMeetings db uid = ⟨200, .meetings (l.map (assembleMeeting db))⟩) := by
  constructor
  · unfold getUserMeetings findUserById
    rw [if_pos hid]
    cases hf : db.users.find? (fun u => u.id == uid) <;> simp [hf]
  · intro u hf
    refine ⟨sortByStart (db.meetings.filter (meetingInvolves uid)),
      List.perm_insertionSort _ _, List.sorted_insertionSort _ _, ?_⟩
    unfold getUserMeetings findUserById
    rw [if_pos hid, hf]

/-- Witness for C6: a valid but unknown user id yields 404. -/
theorem user_meetings_union_witness :
    (getUserMeetings dbOA uidC).status = 404 :=
  (user_meetings_union dbOA uidC (by decide)).1.mpr (by decide)

/-- Claim C7: on a well-formed store, after a successful DELETE of a
meeting id (200), a GET of that id returns 404 and a second DELETE returns
404; and the delete responds 200 with the confirmation message exactly when
a meeting with that id existed. -/
theorem delete_get_delete (db : DB) (id : String) (hwf : db.wf) :
    ((deleteMeetingRoute db id).1.status = 200 →
      (getMeetingById (deleteMeetingRoute db id).2 id).status = 404 ∧
      (deleteMeetingRoute (deleteMeetingRoute db id).2 id).1.status = 404) ∧
    ((deleteMeetingRoute db id).1 =
        ⟨200, .message "Meeting deleted successfully"⟩ ↔
      ∃ m ∈ db.meetings, m.id = id) := by
  obtain ⟨hU, hM, hUid, hMid⟩ := hwf
  by_cases hid : isMongoId id = true
  · unfold deleteMeetingRoute
    rw [if_pos hid]
    cases hf : db.meetings.find? (fun m => m.id == id) with
    | none =>
      refine ⟨fun h => by simp at h, ?_, ?_⟩
      · intro h
        simp at h
      · rintro ⟨m, hm, hmid⟩
        exfalso
        rw [List.find?_eq_none] at hf
        exact hf m hm (by simp [hmid])
    | some m =>
      have herase : ((db.meetings.eraseP (fun m => m.id == id)).find?
          (fun m => m.id == id)) = none :=
        find?_eraseP_of_nodup db.meetings id hM
      refine ⟨fun _ => ⟨?_, ?_⟩, ?_, fun _ => ?_⟩
      · show (getMeetingById
            ⟨db.users, db.meetings.eraseP (fun m => m.id == id)⟩ id).status = 404
        unfold getMeetingById findMeetingById
        rw [if_pos hid]
        simp [herase]
      · show (deleteMeetingRoute
            ⟨db.users, db.meetings.eraseP (fun m => m.id == id)⟩ id).1.status = 404
        unfold deleteMeetingRoute
        rw [if_pos hid]
        simp [herase]
      · intro _
        exact ⟨m, List.mem_of_find?_eq_some hf, by simpa using List.find?_some hf⟩
      · rfl
  · unfold deleteMeetingRoute
    rw [if_neg hid]
    refine ⟨fun h => by simp at h, fun h => by simp at h, ?_⟩
    rintro ⟨m, hm, hmid⟩
    exact absurd (hMid m hm) (by simp_all)

/-- Witness for C7: deleting the stored meeting, a GET of its id is 404. -/
theorem delete_get_delete_witness :
    (getMeetingById (deleteMeetingRoute dbM midM).2 midM).status = 404 :=
  ((delete_get_delete dbM midM (by decide)).1 (by decide)).1

/-- Claim C8: with unique stored user ids, a create or update whose
attendee array repeats an id (all ids syntactically valid, validation
passed, dates in order, organizer existing) is answered 400 with the
attendees-not-found message and persists nothing, because the distinct
matched-user count is compared against the raw list length; hence no
meeting with duplicate attendee ids is ever written through these routes. -/
theorem duplicate_attendees_never_created (db : DB) (b : MeetingBody)
    (ids : List String) (nid id : String)
    (hU : (db.users.map (·.id)).Nodup)
    (hA : b.attendees = .arr ids) (hdup : ¬ ids.Nodup)
    (hv : ids.all isMongoId = true) (hval : validateMeeting b = [])
    (hdate : jsDateGe (bodyStartMs b) (bodyEndMs b) = false)
    (horg : ∃ u, findUserById db (b.organizer.getD "") = .ok (some u)) :
    postMeetingsRoute db b nid =
      (⟨400, .errMsg "One or more attendees not found"⟩, db) ∧
    putMeetingRoute db id b =
      (⟨400, .errMsg "One or more attendees not found"⟩, db) := by
  have hne : ids ≠ [] := by rintro rfl; exact hdup List.nodup_nil
  have hlt := count_lt_of_dup db.users ids hU hdup
  have hc := checks_of_attendees db b ids hdate horg hA hne hv
  rw [if_pos (Nat.ne_of_lt hlt)] at hc
  exact ⟨by rw [post_valid_eq db b nid hval, hc],
         by rw [put_valid_eq db id b hval, hc]⟩

/-- Witness for C8 at a concrete store and duplicated attendee list. -/
theorem duplicate_attendees_never_created_witness :
    postMeetingsRoute dbOA dupBody nid0 =
      (⟨400, .errMsg "One or more attendees not found"⟩, dbOA) :=
  (duplicate_attendees_never_created dbOA dupBody [uidA, uidA] nid0 midM
    (by decide) rfl (by decide) (by decide) (by decide) (by decide)
    ⟨userO, by decide⟩).1

/-- Claim C9: GET /api/users/:id and GET /api/meetings/:id answer 500 for
a syntactically invalid path id (the cast throws into the generic catch),
and 404 exactly for a valid id matching no record. -/
theorem invalid_id_500 (db : DB) (id : String) :
    (isMongoId id = false →
      (getUserById db id).status = 500 ∧ (getMeetingById db id).status = 500) ∧
    ((getUserById db id).status = 404 ↔
      isMongoId id = true ∧ db.users.find? (fun u => u.id == id) = none) ∧
    ((getMeetingById db id).status = 404 ↔
      isMongoId id = true ∧ db.meetings.find? (fun m => m.id == id) = none) := by
  refine ⟨?_, ?_, ?_⟩
  · intro h
    constructor <;>
      simp [getUserById, getMeetingById, findUserById, findMeetingById, h]
  · by_cases hid : isMongoId id = true
    · cases hf : db.users.find? (fun u => u.id == id) <;>
        simp [getUserById, findUserById, hid, hf]
    · simp only [Bool.not_eq_true] at hid
      simp [getUserById, findUserById, hid]
  · by_cases hid : isMongoId id = true
    · cases hf : db.meetings.find? (fun m => m.id == id) <;>
        simp [getMeetingById, findMeetingById, hid, hf]
    · simp only [Bool.not_eq_true] at hid
      simp [getMeetingById, findMeetingById, hid]

/-- Witness for C9: the id "upcoming" is not a valid ObjectId, so both
lookups answer 500. -/
theorem invalid_id_500_witness :
    (getUserById dbOA "upcoming").status = 500 ∧
    (getMeetingById dbOA "upcoming").status = 500 :=
  (invalid_id_500 dbOA "upcoming").1 (by decide)

/-- Claim C10: on PUT /api/meetings/:id the body checks are decided before
the target lookup: every 400 leaves the store unchanged; a 404 implies the
body passed validation and every body check, with the store unchanged; and
a body failing validation, the date check, the organizer check or the
attendee check is answered 400 for every path id, existing or not. -/
theorem put_body_checks_first (db : DB) (id : String) (b : MeetingBody) :
    ((putMeetingRoute db id b).1.status = 400 → (putMeetingRoute db id b).2 = db) ∧
    ((putMeetingRoute db id b).1.status = 404 →
      (validateMeeting b = [] ∧ meetingBodyChecks db b = .pass) ∧
      (putMeetingRoute db id b).2 = db) ∧
    ((validateMeeting b ≠ [] ∨ meetingBodyChecks db b = .dateErr ∨
        meetingBodyChecks db b = .orgErr ∨ meetingBodyChecks db b = .attErr) →
      (putMeetingRoute db id b).1.status = 400) := by
  by_cases hval : validateMeeting b = []
  · rw [put_valid_eq db id b hval]
    cases hc : meetingBodyChecks db b
    · simp_all
    · simp_all
    · simp_all
    · simp_all
    · by_cases hid : isMongoId id = true
      · rw [if_pos hid]
        cases hf : db.meetings.find? (fun m => m.id == id) <;> simp_all
      · rw [if_neg hid]
        simp_all
  · rw [put_invalid db id b hval]
    simp_all

/-- Witness for C10: a bad-dates body is answered 400 although no meeting
with the given (valid, unknown) id exists. -/
theorem put_body_checks_first_witness :
    (putMeetingRoute dbOA uidC eqDatesBody).1.status = 400 :=
  (put_body_checks_first dbOA uidC eqDatesBody).2.2
    (Or.inr (Or.inl (by decide)))

end MeetingsApi
